import Mathlib

/-!
# DongFeng Milnerton site scripts: `js/main.js` and `js/model-page.js`

A shallow embedding of the page behaviours and the properties proved about
them.

Conventions of the embedding.

* A JavaScript number is a rational `ℚ`, the exact value of the double; slide
  indices are `Int`.  Every arithmetic operation of the code is the exact
  operation followed by `roundDouble`, the rounding of IEEE 754 binary64 to
  the nearest double, ties to even.  `Infinity` is `none` in an `Option ℚ`;
  `NaN`, overflow to `Infinity` and the sign of zero are outside the model.
* An element looked up with `querySelector` is an `Option`; a `NodeList`
  is a `List`.
* A function body that can dereference `null`/`undefined` returns, next to
  the state it has reached, a `Completion` telling whether it ran to its end
  or stopped on a `TypeError`.  Assignments made before the throw stay.
-/

namespace DongMilnerton

/-- How the evaluation of a function body ends. -/
inductive Completion where
  | normal
  | typeError
  deriving DecidableEq, Repr

/-! ## Arithmetic on doubles -/

/-- Rounding of a number to the nearest integer, to the even one of the two on
a tie. -/
def roundNearestEven (r : ℚ) : Int :=
  let f : Int := ⌊r⌋
  if r - f < 1 / 2 then f
  else if 1 / 2 < r - f then f + 1
  else if f % 2 = 0 then f else f + 1

/-- The double nearest to a positive number `x`, ties to the even significand:
with `2^e ≤ x < 2^(e+1)` the doubles around `x` are the multiples of
`2^(e-52)`, and the multiples of `2^(-1074)` in the subnormal range. -/
def roundMagnitude (x : ℚ) : ℚ :=
  let e : Int := Int.log 2 x
  let quantum : ℚ := 2 ^ (max (e - 52) (-1074))
  (roundNearestEven (x / quantum) : ℚ) * quantum

/-- The result of one arithmetic operation on doubles: the exact result `x`
rounded to the nearest double. -/
def roundDouble (x : ℚ) : ℚ :=
  if x = 0 then 0
  else if x < 0 then -roundMagnitude (-x)
  else roundMagnitude x

/-! ## Slider (`initSlider` in `js/main.js`) -/

/-- Geometry of one `.model-card`: `offsetLeft`, `offsetWidth` and the width
of its `getBoundingClientRect()`. -/
structure Card where
  offsetLeft : ℚ
  offsetWidth : ℚ
  rectWidth : ℚ
  deriving DecidableEq, Repr

/-- Geometry of the `.slider-track`: `scrollLeft`, `offsetWidth` and the width
of its `getBoundingClientRect()`. -/
structure Track where
  scrollLeft : ℚ
  offsetWidth : ℚ
  rectWidth : ℚ
  deriving DecidableEq, Repr

/-- Mutable state owned by the `initSlider` closure: the variable
`currentSlide`, the presence of class `active` on each `.dot`, and the `left`
of the last `track.scrollTo` request. -/
structure SliderState where
  currentSlide : Int
  dots : List Bool
  scrollRequest : Option ℚ
  deriving DecidableEq, Repr

/-- Body of `dots.forEach((dot, index) => dot.classList.toggle('active',
index === currentSlide))`, started at position `index`. -/
def updateDotsFrom (currentSlide : Int) : Nat → List Bool → List Bool
  | _, [] => []
  | index, _ :: rest =>
    decide ((index : Int) = currentSlide) :: updateDotsFrom currentSlide (index + 1) rest

/-- The closure function `updateDots`. -/
def updateDots (st : SliderState) : SliderState :=
  { st with dots := updateDotsFrom st.currentSlide 0 st.dots }

/-- Array access `cards[index]`: `undefined` outside the list. -/
def cardAt (cards : List Card) (index : Int) : Option Card :=
  if 0 ≤ index then cards.get? index.toNat else none

/-- The closure function `scrollToSlide(index)`; `totalSlides` is
`cards.length`. -/
def scrollToSlide (track : Option Track) (cards : List Card) (st : SliderState)
    (index : Int) : SliderState × Completion :=
  let totalSlides : Int := cards.length
  let index : Int :=
    if index < 0 then totalSlides - 1
    else if index ≥ totalSlides then 0
    else index
  let st : SliderState := { st with currentSlide := index }
  let card := cardAt cards index
  match track with
  | none => (st, Completion.typeError)
  | some t =>
    match card with
    | none => (st, Completion.typeError)
    | some c =>
      let scrollLeft :=
        roundDouble (roundDouble (c.offsetLeft - roundDouble (t.rectWidth / 2)) +
          roundDouble (c.rectWidth / 2))
      (updateDots { st with scrollRequest := some scrollLeft }, Completion.normal)

/-- Click handler of `.slider-btn.prev`. -/
def prevClick (track : Option Track) (cards : List Card) (st : SliderState) :
    SliderState × Completion :=
  scrollToSlide track cards st (st.currentSlide - 1)

/-- Click handler of `.slider-btn.next`. -/
def nextClick (track : Option Track) (cards : List Card) (st : SliderState) :
    SliderState × Completion :=
  scrollToSlide track cards st (st.currentSlide + 1)

/-- Click handler of the dot at position `index`. -/
def dotClick (track : Option Track) (cards : List Card) (st : SliderState) (index : Nat) :
    SliderState × Completion :=
  scrollToSlide track cards st index

/-- Comparison `distance < closestDistance`, where `none` is `Infinity`. -/
def ltClosest (distance : ℚ) (closestDistance : Option ℚ) : Bool :=
  match closestDistance with
  | none => true
  | some d => decide (distance < d)

/-- Centre of a card: `card.offsetLeft + (card.offsetWidth / 2)`. -/
def cardCenter (card : Card) : ℚ :=
  roundDouble (card.offsetLeft + roundDouble (card.offsetWidth / 2))

/-- Centre of the track: `track.scrollLeft + (track.offsetWidth / 2)`. -/
def trackCenterOf (t : Track) : ℚ :=
  roundDouble (t.scrollLeft + roundDouble (t.offsetWidth / 2))

/-- The value of `distance` in the loop body: `Math.abs(trackCenter - cardCenter)`. -/
def distanceTo (trackCenter : ℚ) (card : Card) : ℚ :=
  |roundDouble (trackCenter - cardCenter card)|

/-- The `cards.forEach` loop of `detectCurrentSlide`, started at position
`index` with the pair `(closestIndex, closestDistance)`. -/
def closestFrom (trackCenter : ℚ) : Nat → List Card → Nat × Option ℚ → Nat × Option ℚ
  | _, [], acc => acc
  | index, card :: rest, acc =>
    let distance := distanceTo trackCenter card
    if ltClosest distance acc.2 then
      closestFrom trackCenter (index + 1) rest (index, some distance)
    else
      closestFrom trackCenter (index + 1) rest acc

/-- The value of `closestIndex` after the loop, which starts from
`closestIndex = 0`, `closestDistance = Infinity`. -/
def closestIndex (t : Track) (cards : List Card) : Nat :=
  (closestFrom (trackCenterOf t) 0 cards (0, none)).1

/-- The closure function `detectCurrentSlide`. -/
def detectCurrentSlide (track : Option Track) (cards : List Card) (st : SliderState) :
    SliderState × Completion :=
  match track with
  | none => (st, Completion.typeError)
  | some t =>
    let closest : Int := closestIndex t cards
    if closest ≠ st.currentSlide then
      (updateDots { st with currentSlide := closest }, Completion.normal)
    else
      (st, Completion.normal)

/-- The timer callback set up at the end of `initSlider`:
`scrollToSlide(Math.floor(totalSlides / 2))`. -/
def initialScroll (track : Option Track) (cards : List Card) (st : SliderState) :
    SliderState × Completion :=
  scrollToSlide track cards st ((cards.length / 2 : Nat) : Int)

/-! ## Initialisers and absent elements (`js/main.js`) -/

/-- The part of the page `initNavigation` looks up: the class list of
`.nav-header` when the element exists, whether `.nav-toggle` and `.nav-menu`
exist, and `window.scrollY`. -/
structure NavDom where
  header : Option (List String)
  navToggle : Bool
  navMenu : Bool
  scrollY : ℚ
  deriving DecidableEq, Repr

/-- The listeners `initNavigation` has registered when it stops. -/
structure NavListeners where
  headerScroll : Bool
  menuToggle : Bool
  activeLinkScroll : Bool
  deriving DecidableEq, Repr

/-- The inner function `updateHeaderOnScroll`: `header.classList.add` or
`.remove` of `scrolled`, a `TypeError` when `header` is `null`. -/
def updateHeaderOnScroll (header : Option (List String)) (scrollY : ℚ) :
    Option (List String) × Completion :=
  match header with
  | none => (none, Completion.typeError)
  | some classes =>
    if scrollY > 50 then
      (some (if "scrolled" ∈ classes then classes else classes ++ ["scrolled"]),
        Completion.normal)
    else
      (some (classes.filter (fun c => c ≠ "scrolled")), Completion.normal)

/-- The function `initNavigation`: it registers `updateHeaderOnScroll`, calls it
once, and only then reaches the guarded menu toggle and the active-link
listener. -/
def initNavigation (dom : NavDom) : NavListeners × Option (List String) × Completion :=
  match updateHeaderOnScroll dom.header dom.scrollY with
  | (header, Completion.typeError) =>
    ({ headerScroll := true, menuToggle := false, activeLinkScroll := false },
      header, Completion.typeError)
  | (header, Completion.normal) =>
    ({ headerScroll := true, menuToggle := dom.navToggle && dom.navMenu,
       activeLinkScroll := true },
      header, Completion.normal)

/-- The `.models-slider` element: its track when there is one, its cards, and
whether the two buttons exist. -/
structure SliderElement where
  track : Option Track
  cards : List Card
  prevBtn : Bool
  nextBtn : Bool
  deriving DecidableEq, Repr

/-- The part of the page `initSlider` looks up: the section
`.models-section--fullwidth` when it exists, holding the slider when it exists. -/
structure SliderDom where
  sectionEl : Option (Option SliderElement)
  deriving DecidableEq, Repr

/-- The listeners and timer `initSlider` has registered when it stops. -/
structure SliderListeners where
  prevClick : Bool
  nextClick : Bool
  dotClicks : Bool
  trackScroll : Bool
  initialTimer : Bool
  deriving DecidableEq, Repr

/-- The function `initSlider`: an early return when the section is absent,
then `slider.querySelector` on the slider, the guarded button handlers, the dot
handlers, `track.addEventListener`, and the initial timer. -/
def initSlider (dom : SliderDom) : SliderListeners × Completion :=
  match dom.sectionEl with
  | none =>
    ({ prevClick := false, nextClick := false, dotClicks := false, trackScroll := false,
       initialTimer := false }, Completion.normal)
  | some none =>
    ({ prevClick := false, nextClick := false, dotClicks := false, trackScroll := false,
       initialTimer := false }, Completion.typeError)
  | some (some slider) =>
    match slider.track with
    | none =>
      ({ prevClick := slider.prevBtn, nextClick := slider.nextBtn, dotClicks := true,
         trackScroll := false, initialTimer := false }, Completion.typeError)
    | some _ =>
      ({ prevClick := slider.prevBtn, nextClick := slider.nextBtn, dotClicks := true,
         trackScroll := true, initialTimer := true }, Completion.normal)

/-! ## Colour swatches (`initColorSwatches` in `js/main.js`, `initColorSelector`
in `js/model-page.js`) -/

/-- A swatch element: class `active`, and the attributes `data-image` and
`data-color` when present. -/
structure Swatch where
  active : Bool
  dataImage : Option String
  dataColor : Option String
  deriving DecidableEq, Repr

/-- An assignment to the car image element. -/
inductive ImageWrite where
  | opacity (value : String)
  | src (value : String)
  | alt (value : String)
  deriving DecidableEq, Repr

/-- The loop `swatches.forEach(s => s.classList.remove('active'))`. -/
def removeActiveAll (swatches : List Swatch) : List Swatch :=
  swatches.map (fun s => { s with active := false })

/-- The call `swatch.classList.add('active')` on the swatch at position `i`. -/
def addActiveAt : Nat → List Swatch → List Swatch
  | _, [] => []
  | 0, s :: rest => { s with active := true } :: rest
  | i + 1, s :: rest => s :: addActiveAt i rest

/-- Click handler registered by `initColorSwatches` on the swatch at position
`i` of its group: the new group and the assignments made to an image (none:
the image update is only sketched in a comment). -/
def swatchClick (swatches : List Swatch) (i : Nat) : List Swatch × List ImageWrite :=
  (addActiveAt i (removeActiveAll swatches), [])

/-- The callback handed to `setTimeout(..., 150)` by the colour selector: it
closes over `newImageSrc` and `colorName`. -/
structure SwapTimer where
  newImageSrc : String
  colorName : Option String
  deriving DecidableEq, Repr

/-- Truthiness of a `dataset` entry: defined and not the empty string. -/
def truthy (value : Option String) : Bool :=
  match value with
  | none => false
  | some v => v ≠ ""

/-- Click handler registered by `initColorSelector` on the swatch at position
`i`: the new swatches, the assignments made at once, and the timer set up. -/
def colorSelectorClick (swatches : List Swatch) (i : Nat) :
    List Swatch × List ImageWrite × Option SwapTimer :=
  let swatches' := addActiveAt i (removeActiveAll swatches)
  match swatches.get? i with
  | none => (swatches', [], none)
  | some swatch =>
    match swatch.dataImage with
    | none => (swatches', [], none)
    | some newImageSrc =>
      if truthy (some newImageSrc) then
        (swatches', [ImageWrite.opacity "0"],
          some { newImageSrc := newImageSrc, colorName := swatch.dataColor })
      else
        (swatches', [], none)

/-- The text `colorName.charAt(0).toUpperCase() + colorName.slice(1)`; the
host function `toUpperCase` is a parameter. -/
def capitalised (toUpperCase : String → String) (colorName : String) : String :=
  toUpperCase (colorName.take 1) ++ colorName.drop 1

/-- Run of the timer callback: `src`, then `alt` (a `TypeError` when
`colorName` is `undefined`), then `opacity`. -/
def swapTimerFire (toUpperCase : String → String) (timer : SwapTimer) :
    List ImageWrite × Completion :=
  match timer.colorName with
  | none => ([ImageWrite.src timer.newImageSrc], Completion.typeError)
  | some colorName =>
    ([ImageWrite.src timer.newImageSrc,
      ImageWrite.alt ("DongFeng Box in " ++ capitalised toUpperCase colorName),
      ImageWrite.opacity "1"], Completion.normal)

/-- All assignments to the car image caused by one click of the colour
selector: those of the handler followed by those of its timer callback. -/
def colorSelectorWrites (toUpperCase : String → String) (swatches : List Swatch) (i : Nat) :
    List ImageWrite :=
  match colorSelectorClick swatches i with
  | (_, writes, none) => writes
  | (_, writes, some timer) => writes ++ (swapTimerFire toUpperCase timer).1

/-- The values assigned to `src` in a list of assignments. -/
def srcWrites : List ImageWrite → List String
  | [] => []
  | ImageWrite.src v :: rest => v :: srcWrites rest
  | _ :: rest => srcWrites rest

/-! ## Test drive modal (`initTestDriveModal` in `js/model-page.js`) -/

/-- State touched by the modal: class `active` on `#testDriveModal` and
`document.body.style.overflow`. -/
structure ModalState where
  active : Bool
  bodyOverflow : String
  deriving DecidableEq, Repr

/-- The inner function `openModal` (the focus timer it sets touches neither
field). -/
def openModal (st : ModalState) : ModalState :=
  { st with active := true, bodyOverflow := "hidden" }

/-- The inner function `closeModal`. -/
def closeModal (st : ModalState) : ModalState :=
  { st with active := false, bodyOverflow := "" }

/-- Click handler of `.modal-close`, which is `closeModal` itself. -/
def closeBtnClick (st : ModalState) : ModalState :=
  closeModal st

/-- Click handler of the modal; `targetIsModal` is `e.target === modal`. -/
def modalClick (targetIsModal : Bool) (st : ModalState) : ModalState :=
  if targetIsModal then closeModal st else st

/-- The `keydown` handler of the document; `key` is `e.key`. -/
def documentKeydown (key : String) (st : ModalState) : ModalState :=
  if key = "Escape" ∧ st.active = true then closeModal st else st

/-! ## Stats counter (`animateCounter` in `js/main.js`) -/

/-- The constant `duration`, in milliseconds. -/
def duration : ℚ := 2000

/-- Truncation of a number towards zero. -/
def truncate (x : ℚ) : Int :=
  if 0 ≤ x then ⌊x⌋ else ⌈x⌉

/-- The remainder operator `a % b` of JavaScript on numbers, for `b ≠ 0`: the
result takes the sign of `a`. -/
def jsRem (a b : ℚ) : ℚ :=
  a - b * (truncate (a / b) : ℚ)

/-- The flag `isDecimal`: `target % 1 !== 0`. -/
def isDecimal (target : ℚ) : Bool :=
  jsRem target 1 ≠ 0

/-- The value `current` computed by `updateCounter(currentTime)`:
`target * easeOut` with `easeOut = 1 - Math.pow(1 - progress, 3)`,
`progress = Math.min(elapsed / duration, 1)` and
`elapsed = currentTime - startTime`.  `Math.pow` is taken to return the double
nearest to the exact cube. -/
def currentValue (target startTime currentTime : ℚ) : ℚ :=
  let elapsed := roundDouble (currentTime - startTime)
  let progress := min (roundDouble (elapsed / duration)) 1
  let easeOut := roundDouble (1 - roundDouble ((roundDouble (1 - progress)) ^ 3))
  roundDouble (target * easeOut)

/-- The method `Number.prototype.toFixed(1)`: a minus sign for a negative
number, then the integer `n` nearest to ten times the magnitude (the larger
one on a tie) written with its last digit after the point.  The method works
on the exact value of the double; it switches to exponent notation from
`10^21` on, above every double that has a fractional part. -/
def toFixed1 (x : ℚ) : String :=
  let sign := if x < 0 then "-" else ""
  let x := if x < 0 then -x else x
  let n : Nat := (⌊x * 10 + 1 / 2⌋).toNat
  sign ++ Nat.repr (n / 10) ++ "." ++ Nat.repr (n % 10)

/-- Digits of a natural number given least significant first, with the
separator after every third digit that has a digit left of it, still least
significant first. -/
def groupReversed (separator : Char) : List Char → List Char
  | a :: b :: c :: d :: rest => a :: b :: c :: separator :: groupReversed separator (d :: rest)
  | digits => digits

/-- An integer written with a minus sign when negative and its decimal digits
in groups of three from the right, the groups joined by the separator. -/
def groupedInteger (separator : Char) (z : Int) : String :=
  (if z < 0 then "-" else "") ++
    String.mk (groupReversed separator (Nat.repr z.natAbs).data.reverse).reverse

/-- The method `Number.prototype.toLocaleString()` on a whole number of
magnitude below `2^53`, in a host whose default locale is `en-US`. -/
def toLocaleStringEnUS (z : Int) : String :=
  groupedInteger ',' z

/-- The method `Number.prototype.toLocaleString()` on a whole number of
magnitude below `2^53`, in a host whose default locale is `de-DE`. -/
def toLocaleStringDeDE (z : Int) : String :=
  groupedInteger '.' z

/-- One run of `updateCounter(currentTime)`: the `textContent` it leaves and
whether it asked for another animation frame.  The host function
`toLocaleString`, whose output depends on the default locale of the host, is
a parameter; the code only ever applies it to whole numbers,
`Math.floor(current)` and a `target` that is not decimal. -/
def updateCounter (toLocaleString : Int → String) (target startTime currentTime : ℚ) :
    String × Bool :=
  let elapsed := roundDouble (currentTime - startTime)
  let progress := min (roundDouble (elapsed / duration)) 1
  let easeOut := roundDouble (1 - roundDouble ((roundDouble (1 - progress)) ^ 3))
  let current := roundDouble (target * easeOut)
  let text :=
    if isDecimal target then toFixed1 current else toLocaleString ⌊current⌋
  if progress < 1 then
    (text, true)
  else
    (if isDecimal target then toFixed1 target else toLocaleString ⌊target⌋, false)

/-! ## Predicates used in the statements -/

/-- The dot synchronisation predicate for a slider of `n` slides: `currentSlide`
is an index in `[0, n)`, there are `n` dots, and dot `i` carries class `active`
if and only if `i = currentSlide`. -/
def DotsSynced (n : Nat) (st : SliderState) : Prop :=
  0 ≤ st.currentSlide ∧ st.currentSlide < (n : Int) ∧ st.dots.length = n ∧
    ∀ i : Nat, i < n → st.dots.get? i = some (decide ((i : Int) = st.currentSlide))

/-- Geometry in whole pixels: `scrollLeft`, `offsetLeft` and `offsetWidth` of
the track and of every card are integers of magnitude at most `2^50`. -/
def WholePixels (t : Track) (cards : List Card) : Prop :=
  (∃ s w : Int, t.scrollLeft = (s : ℚ) ∧ t.offsetWidth = (w : ℚ) ∧
      |s| ≤ 2 ^ 50 ∧ |w| ≤ 2 ^ 50) ∧
    ∀ c ∈ cards, ∃ a w : Int, c.offsetLeft = (a : ℚ) ∧ c.offsetWidth = (w : ℚ) ∧
      |a| ≤ 2 ^ 50 ∧ |w| ≤ 2 ^ 50

/-! ## Properties of the arithmetic on doubles -/

/-- A number within one half of an integer rounds to that integer. -/
theorem roundNearestEven_of_near (r : ℚ) (n : Int) (h1 : (n : ℚ) - 1 / 2 < r)
    (h2 : r < (n : ℚ) + 1 / 2) : roundNearestEven r = n := by
  unfold roundNearestEven
  simp only []
  by_cases hn : (n : ℚ) ≤ r
  · have hf : ⌊r⌋ = n := by
      rw [Int.floor_eq_iff]
      constructor
      · exact hn
      · linarith
    rw [hf, if_pos (by linarith)]
  · have hf : ⌊r⌋ = n - 1 := by
      rw [Int.floor_eq_iff]
      push_cast
      constructor <;> linarith
    rw [hf]
    push_cast
    rw [if_neg (by linarith), if_pos (by linarith)]
    ring

/-- Rounding to the nearest integer does not go below an integer that the
number is not below. -/
theorem le_roundNearestEven (r : ℚ) (m : Int) (h : (m : ℚ) ≤ r) :
    m ≤ roundNearestEven r := by
  have hf : m ≤ ⌊r⌋ := Int.le_floor.mpr h
  unfold roundNearestEven
  simp only []
  split_ifs <;> omega

/-- Evaluation of the rounding in the normal range from the binade `e` of
the number and the integer `n` nearest to its significand. -/
theorem roundMagnitude_eval (x : ℚ) (e n : Int) (h1 : (2 : ℚ) ^ e ≤ x)
    (h2 : x < (2 : ℚ) ^ (e + 1)) (he : -1022 ≤ e)
    (hn1 : (n : ℚ) - 1 / 2 < x / (2 : ℚ) ^ (e - 52))
    (hn2 : x / (2 : ℚ) ^ (e - 52) < (n : ℚ) + 1 / 2) :
    roundMagnitude x = (n : ℚ) * (2 : ℚ) ^ (e - 52) := by
  have hx : 0 < x := lt_of_lt_of_le (zpow_pos (by norm_num) e) h1
  have hlog : Int.log 2 x = e := by
    apply le_antisymm
    · have := (Int.lt_zpow_iff_log_lt (b := 2) (by norm_num) hx (x := e + 1)).mp
        (by exact_mod_cast h2)
      omega
    · exact (Int.zpow_le_iff_le_log (b := 2) (by norm_num) hx).mp (by exact_mod_cast h1)
  unfold roundMagnitude
  simp only [hlog]
  rw [max_eq_left (by omega), roundNearestEven_of_near _ n hn1 hn2]

/-- Rounding does not go below a multiple of the quantum that the number is
not below. -/
theorem le_roundMagnitude (x : ℚ) (m : Int)
    (h : (m : ℚ) * (2 : ℚ) ^ (max (Int.log 2 x - 52) (-1074)) ≤ x) :
    (m : ℚ) * (2 : ℚ) ^ (max (Int.log 2 x - 52) (-1074)) ≤ roundMagnitude x := by
  have hq : (0 : ℚ) < (2 : ℚ) ^ (max (Int.log 2 x - 52) (-1074)) := zpow_pos (by norm_num) _
  unfold roundMagnitude
  simp only []
  apply mul_le_mul_of_nonneg_right _ hq.le
  have : m ≤ roundNearestEven (x / (2 : ℚ) ^ (max (Int.log 2 x - 52) (-1074))) := by
    apply le_roundNearestEven
    rw [le_div_iff₀ hq]
    exact h
  exact_mod_cast this


/-- An integer rounds to itself. -/
theorem roundNearestEven_intCast (n : Int) : roundNearestEven (n : ℚ) = n :=
  roundNearestEven_of_near _ n (by linarith) (by linarith)

/-- Splitting of a power of two at a lower exponent. -/
theorem zpow_two_split (j k : Int) (h : j ≤ k) :
    (2 : ℚ) ^ k = (2 : ℚ) ^ (k - j).toNat * (2 : ℚ) ^ j := by
  have hk : k = ((k - j).toNat : Int) + j := by
    rw [Int.toNat_of_nonneg (by omega)]
    omega
  conv_lhs => rw [hk, zpow_add₀ (by norm_num : (2 : ℚ) ≠ 0), zpow_natCast]

/-- Cast of a bound on a significand. -/
theorem intCast_lt_two_pow_53 (m : Int) (hm : m < 2 ^ 53) : (m : ℚ) < (2 : ℚ) ^ (53 : Int) := by
  have : (m : ℚ) < ((2 ^ 53 : Int) : ℚ) := by exact_mod_cast hm
  norm_num at this ⊢
  exact this

/-- A positive number `m * 2^k` with `m < 2^53` and `k ≥ -1074` is a double:
rounding leaves it alone. -/
theorem roundMagnitude_dyadic (m k : Int) (hm0 : 0 < m) (hm : m < 2 ^ 53) (hk : -1074 ≤ k) :
    roundMagnitude ((m : ℚ) * (2 : ℚ) ^ k) = (m : ℚ) * (2 : ℚ) ^ k := by
  have h2k : (0 : ℚ) < (2 : ℚ) ^ k := zpow_pos (by norm_num) k
  have hx : (0 : ℚ) < (m : ℚ) * (2 : ℚ) ^ k := mul_pos (by exact_mod_cast hm0) h2k
  have hlt : (m : ℚ) * (2 : ℚ) ^ k < (2 : ℚ) ^ (53 + k) := by
    rw [zpow_add₀ (by norm_num)]
    exact mul_lt_mul_of_pos_right (intCast_lt_two_pow_53 m hm) h2k
  have hlog : Int.log 2 ((m : ℚ) * (2 : ℚ) ^ k) < 53 + k :=
    (Int.lt_zpow_iff_log_lt (b := 2) (by norm_num) hx).mp (by exact_mod_cast hlt)
  have hj : max (Int.log 2 ((m : ℚ) * (2 : ℚ) ^ k) - 52) (-1074) ≤ k := max_le (by omega) hk
  unfold roundMagnitude
  simp only []
  generalize max (Int.log 2 ((m : ℚ) * (2 : ℚ) ^ k) - 52) (-1074) = j at hj
  have hq : (0 : ℚ) < (2 : ℚ) ^ j := zpow_pos (by norm_num) j
  have hsplit := zpow_two_split j k hj
  have hdiv : (m : ℚ) * (2 : ℚ) ^ k / (2 : ℚ) ^ j =
      ((m * (2 : Int) ^ (k - j).toNat : Int) : ℚ) := by
    rw [hsplit, div_eq_iff (ne_of_gt hq)]
    push_cast
    ring
  rw [hdiv, roundNearestEven_intCast, hsplit]
  push_cast
  ring

/-- A number `m * 2^k` with `|m| < 2^53` and `k ≥ -1074` is a double:
rounding leaves it alone. -/
theorem roundDouble_dyadic (m k : Int) (hm0 : -(2 ^ 53) < m) (hm : m < 2 ^ 53) (hk : -1074 ≤ k) :
    roundDouble ((m : ℚ) * (2 : ℚ) ^ k) = (m : ℚ) * (2 : ℚ) ^ k := by
  have h2k : (0 : ℚ) < (2 : ℚ) ^ k := zpow_pos (by norm_num) k
  unfold roundDouble
  rcases lt_trichotomy m 0 with h | h | h
  · have hneg : (m : ℚ) * (2 : ℚ) ^ k < 0 := mul_neg_of_neg_of_pos (by exact_mod_cast h) h2k
    rw [if_neg (ne_of_lt hneg), if_pos hneg]
    have := roundMagnitude_dyadic (-m) k (by omega) (by omega) hk
    push_cast at this
    rw [neg_mul] at this
    rw [this]
    ring
  · subst h
    simp
  · have hpos : 0 < (m : ℚ) * (2 : ℚ) ^ k := mul_pos (by exact_mod_cast h) h2k
    rw [if_neg (ne_of_gt hpos), if_neg (not_lt.mpr hpos.le)]
    exact roundMagnitude_dyadic m k h hm hk

/-- Rounding does not go below a positive double that the number is not
below. -/
theorem le_roundDouble_of_dyadic (x : ℚ) (m k : Int) (hm0 : 0 < m) (hm : m < 2 ^ 53)
    (hk : -1074 ≤ k) (h : (m : ℚ) * (2 : ℚ) ^ k ≤ x) :
    (m : ℚ) * (2 : ℚ) ^ k ≤ roundDouble x := by
  have h2k : (0 : ℚ) < (2 : ℚ) ^ k := zpow_pos (by norm_num) k
  have hc : (0 : ℚ) < (m : ℚ) * (2 : ℚ) ^ k := mul_pos (by exact_mod_cast hm0) h2k
  have hx : 0 < x := lt_of_lt_of_le hc h
  unfold roundDouble
  rw [if_neg (ne_of_gt hx), if_neg (not_lt.mpr hx.le)]
  by_cases hj : max (Int.log 2 x - 52) (-1074) ≤ k
  · have hsplit := zpow_two_split _ k hj
    have := le_roundMagnitude x (m * (2 : Int) ^ (k - max (Int.log 2 x - 52) (-1074)).toNat) (by
      rw [hsplit] at h
      push_cast
      rw [mul_assoc]
      exact h)
    rw [hsplit]
    push_cast at this
    rw [mul_assoc] at this
    exact this
  · have hj' : k < max (Int.log 2 x - 52) (-1074) := not_le.mp hj
    have hmax : max (Int.log 2 x - 52) (-1074) = Int.log 2 x - 52 := by
      rcases max_cases (Int.log 2 x - 52) (-1074) with ⟨h1, _⟩ | ⟨h1, _⟩
      · exact h1
      · omega
    have hpow : ((2 ^ 52 : Int) : ℚ) * (2 : ℚ) ^ (max (Int.log 2 x - 52) (-1074)) =
        (2 : ℚ) ^ (Int.log 2 x) := by
      rw [hmax]
      have : ((2 ^ 52 : Int) : ℚ) = (2 : ℚ) ^ (52 : Int) := by norm_num
      rw [this, ← zpow_add₀ (by norm_num)]
      congr 1
      omega
    have hle : (2 : ℚ) ^ (Int.log 2 x) ≤ x := by
      have := Int.zpow_log_le_self (b := 2) (by norm_num) hx
      simpa using this
    have hgrid := le_roundMagnitude x (2 ^ 52) (by rw [hpow]; exact hle)
    rw [hpow] at hgrid
    refine le_trans ?_ hgrid
    have h1 : (m : ℚ) ≤ (2 : ℚ) ^ (53 : Int) := (intCast_lt_two_pow_53 m hm).le
    calc (m : ℚ) * (2 : ℚ) ^ k ≤ (2 : ℚ) ^ (53 : Int) * (2 : ℚ) ^ k :=
          mul_le_mul_of_nonneg_right h1 h2k.le
      _ = (2 : ℚ) ^ (53 + k) := by rw [zpow_add₀ (by norm_num)]
      _ ≤ (2 : ℚ) ^ (Int.log 2 x) := zpow_le_zpow_right₀ (by norm_num) (by omega)

/-- Evaluation of the rounding of a positive number in the normal range. -/
theorem roundDouble_eval_pos (x : ℚ) (e n : Int) (h1 : (2 : ℚ) ^ e ≤ x)
    (h2 : x < (2 : ℚ) ^ (e + 1)) (he : -1022 ≤ e)
    (hn1 : (n : ℚ) - 1 / 2 < x / (2 : ℚ) ^ (e - 52))
    (hn2 : x / (2 : ℚ) ^ (e - 52) < (n : ℚ) + 1 / 2) :
    roundDouble x = (n : ℚ) * (2 : ℚ) ^ (e - 52) := by
  have hx : 0 < x := lt_of_lt_of_le (zpow_pos (by norm_num) e) h1
  rw [roundDouble, if_neg (ne_of_gt hx), if_neg (not_lt.mpr hx.le)]
  exact roundMagnitude_eval x e n h1 h2 he hn1 hn2

/-- Evaluation of the rounding of a negative number in the normal range. -/
theorem roundDouble_eval_neg (x : ℚ) (e n : Int) (h1 : (2 : ℚ) ^ e ≤ -x)
    (h2 : -x < (2 : ℚ) ^ (e + 1)) (he : -1022 ≤ e)
    (hn1 : (n : ℚ) - 1 / 2 < -x / (2 : ℚ) ^ (e - 52))
    (hn2 : -x / (2 : ℚ) ^ (e - 52) < (n : ℚ) + 1 / 2) :
    roundDouble x = -((n : ℚ) * (2 : ℚ) ^ (e - 52)) := by
  have hx : 0 < -x := lt_of_lt_of_le (zpow_pos (by norm_num) e) h1
  have hx' : x < 0 := by linarith
  rw [roundDouble, if_neg (ne_of_lt hx'), if_pos hx']
  rw [roundMagnitude_eval (-x) e n h1 h2 he hn1 hn2]

/-- A whole number of magnitude below `2^53` is a double. -/
theorem roundDouble_intCast (z : Int) (h1 : -(2 ^ 53) < z) (h2 : z < 2 ^ 53) :
    roundDouble (z : ℚ) = (z : ℚ) := by
  have := roundDouble_dyadic z 0 h1 h2 (by norm_num)
  simpa using this

/-- Half of a whole number of magnitude below `2^53` is a double. -/
theorem roundDouble_half (z : Int) (h1 : -(2 ^ 53) < z) (h2 : z < 2 ^ 53) :
    roundDouble ((z : ℚ) / 2) = (z : ℚ) / 2 := by
  have := roundDouble_dyadic z (-1) h1 h2 (by norm_num)
  have e : (z : ℚ) * (2 : ℚ) ^ (-1 : Int) = (z : ℚ) / 2 := by
    rw [zpow_neg_one, div_eq_mul_inv]
  rwa [e] at this

/-- The centre `left + width / 2` is computed exactly on whole pixels. -/
theorem center_exact (a w : Int) (ha : |a| ≤ 2 ^ 50) (hw : |w| ≤ 2 ^ 50) :
    roundDouble ((a : ℚ) + roundDouble ((w : ℚ) / 2)) = (a : ℚ) + (w : ℚ) / 2 := by
  have ha' := abs_le.mp ha
  have hw' := abs_le.mp hw
  rw [roundDouble_half w (by omega) (by omega)]
  have e : (a : ℚ) + (w : ℚ) / 2 = ((2 * a + w : Int) : ℚ) / 2 := by
    push_cast
    ring
  rw [e]
  exact roundDouble_half (2 * a + w) (by omega) (by omega)

/-- The difference of two centres is computed exactly on whole pixels. -/
theorem centerDifference_exact (s w a v : Int) (hs : |s| ≤ 2 ^ 50) (hw : |w| ≤ 2 ^ 50)
    (ha : |a| ≤ 2 ^ 50) (hv : |v| ≤ 2 ^ 50) :
    roundDouble (((s : ℚ) + (w : ℚ) / 2) - ((a : ℚ) + (v : ℚ) / 2)) =
      ((s : ℚ) + (w : ℚ) / 2) - ((a : ℚ) + (v : ℚ) / 2) := by
  have hs' := abs_le.mp hs
  have hw' := abs_le.mp hw
  have ha' := abs_le.mp ha
  have hv' := abs_le.mp hv
  have e : ((s : ℚ) + (w : ℚ) / 2) - ((a : ℚ) + (v : ℚ) / 2) =
      ((2 * s + w - 2 * a - v : Int) : ℚ) / 2 := by
    push_cast
    ring
  rw [e]
  exact roundDouble_half (2 * s + w - 2 * a - v) (by omega) (by omega)

/-! ## Properties of the slider -/

/-- The index stored by `scrollToSlide`, whatever the completion. -/
theorem scrollToSlide_currentSlide (track : Option Track) (cards : List Card)
    (st : SliderState) (index : Int) :
    (scrollToSlide track cards st index).1.currentSlide =
      if index < 0 then (cards.length : Int) - 1
      else if index ≥ (cards.length : Int) then 0 else index := by
  unfold scrollToSlide
  cases track with
  | none => rfl
  | some t =>
    simp only []
    split <;> rfl

/-- An index in range names a card. -/
theorem cardAt_isSome (cards : List Card) (index : Int) (h0 : 0 ≤ index)
    (h1 : index < cards.length) : ∃ c, cardAt cards index = some c := by
  have hlt : index.toNat < cards.length := by omega
  refine ⟨cards.get ⟨index.toNat, hlt⟩, ?_⟩
  simp [cardAt, h0, List.get?_eq_get hlt]

/-- With a track and at least one card, `scrollToSlide` runs to its end. -/
theorem scrollToSlide_normal (t : Track) (cards : List Card) (st : SliderState)
    (index : Int) (hN : 1 ≤ cards.length) :
    (scrollToSlide (some t) cards st index).2 = Completion.normal := by
  have hr : ∃ c, cardAt cards (if index < 0 then (cards.length : Int) - 1
      else if index ≥ (cards.length : Int) then 0 else index) = some c := by
    apply cardAt_isSome <;> split_ifs <;> omega
  obtain ⟨c, hc⟩ := hr
  simp only [scrollToSlide, hc]

/-- C1: with `N ≥ 1` slides, "next" from `N-1` leaves `currentSlide = 0`,
"previous" from `0` leaves `N-1`, from every other in-range index next and
previous move by exactly one; with the track present both handlers run to
their end. -/
theorem next_prev_wrap (track : Option Track) (cards : List Card) (st : SliderState)
    (hN : 1 ≤ cards.length) :
    (st.currentSlide = (cards.length : Int) - 1 →
        (nextClick track cards st).1.currentSlide = 0) ∧
    (st.currentSlide = 0 →
        (prevClick track cards st).1.currentSlide = (cards.length : Int) - 1) ∧
    (0 ≤ st.currentSlide → st.currentSlide < (cards.length : Int) - 1 →
        (nextClick track cards st).1.currentSlide = st.currentSlide + 1) ∧
    (0 < st.currentSlide → st.currentSlide < (cards.length : Int) →
        (prevClick track cards st).1.currentSlide = st.currentSlide - 1) ∧
    (∀ t : Track, (nextClick (some t) cards st).2 = Completion.normal ∧
        (prevClick (some t) cards st).2 = Completion.normal) := by
  refine ⟨?_, ?_, ?_, ?_, ?_⟩
  · intro h
    rw [nextClick, scrollToSlide_currentSlide]
    split_ifs <;> omega
  · intro h
    rw [prevClick, scrollToSlide_currentSlide]
    split_ifs <;> omega
  · intro h0 h1
    rw [nextClick, scrollToSlide_currentSlide]
    split_ifs <;> omega
  · intro h0 h1
    rw [prevClick, scrollToSlide_currentSlide]
    split_ifs <;> omega
  · intro t
    exact ⟨scrollToSlide_normal t cards _ _ hN, scrollToSlide_normal t cards _ _ hN⟩

/-- Witness of C1: three cards, "next" from `currentSlide = 2`. -/
theorem next_prev_wrap_witness :
    1 ≤ [Card.mk 0 300 300, Card.mk 320 300 300, Card.mk 640 300 300].length ∧
    (nextClick (some (Track.mk 640 900 900))
      [Card.mk 0 300 300, Card.mk 320 300 300, Card.mk 640 300 300]
      (SliderState.mk 2 [false, false, true] none)).1.currentSlide = 0 :=
  ⟨by decide,
   (next_prev_wrap (some (Track.mk 640 900 900))
      [Card.mk 0 300 300, Card.mk 320 300 300, Card.mk 640 300 300]
      (SliderState.mk 2 [false, false, true] none) (by decide)).1 (by decide)⟩

/-- C8 as stated fails: with three slides, `scrollToSlide(4)` stores `0`,
while `4` modulo `3` is `1`. -/
theorem scrollToSlide_not_modulo :
    (scrollToSlide (some (Track.mk 0 900 900))
      [Card.mk 0 300 300, Card.mk 320 300 300, Card.mk 640 300 300]
      (SliderState.mk 0 [true, false, false, false, false] none) 4).1.currentSlide = 0 ∧
    (4 : Int) % 3 = 1 ∧
    (scrollToSlide (some (Track.mk 0 900 900))
      [Card.mk 0 300 300, Card.mk 320 300 300, Card.mk 640 300 300]
      (SliderState.mk 0 [true, false, false, false, false] none) (-2)).1.currentSlide = 2 ∧
    (-2 : Int) % 3 = 1 := by
  refine ⟨?_, by decide, ?_, by decide⟩
  · rw [scrollToSlide_currentSlide]; decide
  · rw [scrollToSlide_currentSlide]; decide

/-- C8, amended: with `N ≥ 1` slides, `scrollToSlide(index)` stores `N-1` for
every negative index, `0` for every index `≥ N`, and the index itself when it
is in range; the result lies in `[0, N-1]` and is `index` modulo `N` exactly
on the one-step overshoots, `-1 ≤ index ≤ N`. -/
theorem scrollToSlide_wraps_one_step (track : Option Track) (cards : List Card)
    (st : SliderState) (index : Int) (hN : 1 ≤ cards.length) :
    (index < 0 →
        (scrollToSlide track cards st index).1.currentSlide = (cards.length : Int) - 1) ∧
    ((cards.length : Int) ≤ index →
        (scrollToSlide track cards st index).1.currentSlide = 0) ∧
    (0 ≤ index → index < (cards.length : Int) →
        (scrollToSlide track cards st index).1.currentSlide = index) ∧
    (0 ≤ (scrollToSlide track cards st index).1.currentSlide ∧
        (scrollToSlide track cards st index).1.currentSlide < (cards.length : Int)) ∧
    (-1 ≤ index → index ≤ (cards.length : Int) →
        (scrollToSlide track cards st index).1.currentSlide = index % (cards.length : Int)) := by
  rw [scrollToSlide_currentSlide]
  have hpos : (0 : Int) < (cards.length : Int) := by omega
  refine ⟨?_, ?_, ?_, ?_, ?_⟩
  · intro h; rw [if_pos h]
  · intro h; rw [if_neg (by omega), if_pos (by omega)]
  · intro h0 h1; rw [if_neg (by omega), if_neg (by omega)]
  · split_ifs <;> omega
  · intro h0 h1
    by_cases hneg : index < 0
    · have hi : index = ((cards.length : Int) - 1) + (-1) * (cards.length : Int) := by omega
      rw [if_pos hneg]
      conv_rhs => rw [hi, Int.add_mul_emod_self]
      exact (Int.emod_eq_of_lt (by omega) (by omega)).symm
    · rw [if_neg hneg]
      by_cases hge : index ≥ (cards.length : Int)
      · have hi : index = (cards.length : Int) := by omega
        rw [if_pos hge, hi, Int.emod_self]
      · rw [if_neg hge]
        exact (Int.emod_eq_of_lt (by omega) (by omega)).symm

/-- Witness of the amended C8: three cards, `scrollToSlide(-1)` stores `2`. -/
theorem scrollToSlide_wraps_one_step_witness :
    1 ≤ [Card.mk 0 300 300, Card.mk 320 300 300, Card.mk 640 300 300].length ∧
    (scrollToSlide (some (Track.mk 0 900 900))
      [Card.mk 0 300 300, Card.mk 320 300 300, Card.mk 640 300 300]
      (SliderState.mk 0 [true, false, false] none) (-1)).1.currentSlide = 3 - 1 :=
  ⟨by decide,
   (scrollToSlide_wraps_one_step (some (Track.mk 0 900 900))
      [Card.mk 0 300 300, Card.mk 320 300 300, Card.mk 640 300 300]
      (SliderState.mk 0 [true, false, false] none) (-1) (by decide)).1 (by decide)⟩

/-- What the `forEach` loop of `detectCurrentSlide` computes: either no card
beats the incoming `closestDistance`, or the result is the first card of least
distance, and it beats the incoming `closestDistance`. -/
theorem closestFrom_spec (tc : ℚ) : ∀ (cards : List Card) (k i0 : Nat) (d0 : Option ℚ),
    (closestFrom tc k cards (i0, d0) = (i0, d0) ∧
        ∀ c ∈ cards, ltClosest (distanceTo tc c) d0 = false) ∨
    (∃ (j : Nat) (c : Card), cards.get? j = some c ∧
        closestFrom tc k cards (i0, d0) = (k + j, some (distanceTo tc c)) ∧
        ltClosest (distanceTo tc c) d0 = true ∧
        ∀ (j' : Nat) (c' : Card), cards.get? j' = some c' →
          distanceTo tc c ≤ distanceTo tc c' ∧ (j' < j → distanceTo tc c < distanceTo tc c')) := by
  intro cards
  induction cards with
  | nil =>
    intro k i0 d0
    left
    exact ⟨rfl, by simp⟩
  | cons card rest ih =>
    intro k i0 d0
    by_cases hlt : ltClosest (distanceTo tc card) d0 = true
    · -- the head becomes the closest so far
      have hstep : closestFrom tc k (card :: rest) (i0, d0) =
          closestFrom tc (k + 1) rest (k, some (distanceTo tc card)) := by
        simp [closestFrom, hlt]
      right
      rcases ih (k + 1) k (some (distanceTo tc card)) with ⟨heq, hall⟩ | ⟨j, c, hj, heq, hbeat, hmin⟩
      · refine ⟨0, card, rfl, ?_, hlt, ?_⟩
        · rw [hstep, heq]; rfl
        · intro j' c' hj'
          cases j' with
          | zero =>
            simp at hj'
            subst hj'
            exact ⟨le_refl _, fun h => absurd h (Nat.lt_irrefl 0)⟩
          | succ m =>
            have hmem : c' ∈ rest := List.get?_mem hj'
            have := hall c' hmem
            simp [ltClosest] at this
            exact ⟨this, fun h => absurd h (Nat.not_lt_zero _)⟩
      · have hcl : distanceTo tc c < distanceTo tc card := by
          simpa [ltClosest] using hbeat
        refine ⟨j + 1, c, by simpa using hj, ?_, ?_, ?_⟩
        · rw [hstep, heq]; congr 1; omega
        · cases d0 with
          | none => rfl
          | some d =>
            have : distanceTo tc card < d := by simpa [ltClosest] using hlt
            simp only [ltClosest, decide_eq_true_eq]
            exact lt_trans hcl this
        · intro j' c' hj'
          cases j' with
          | zero =>
            simp at hj'
            subst hj'
            exact ⟨le_of_lt hcl, fun _ => hcl⟩
          | succ m =>
            have := hmin m c' (by simpa using hj')
            exact ⟨this.1, fun h => this.2 (by omega)⟩
    · -- the head does not beat the closest so far
      have hlt' : ltClosest (distanceTo tc card) d0 = false := by
        simpa using hlt
      have hstep : closestFrom tc k (card :: rest) (i0, d0) =
          closestFrom tc (k + 1) rest (i0, d0) := by
        simp [closestFrom, hlt']
      rcases ih (k + 1) i0 d0 with ⟨heq, hall⟩ | ⟨j, c, hj, heq, hbeat, hmin⟩
      · left
        refine ⟨by rw [hstep, heq], ?_⟩
        intro c hc
        rcases List.mem_cons.mp hc with h | h
        · subst h; exact hlt'
        · exact hall c h
      · right
        have hcl : distanceTo tc c < distanceTo tc card := by
          cases d0 with
          | none => simp [ltClosest] at hlt'
          | some d =>
            have h1 : distanceTo tc c < d := by simpa [ltClosest] using hbeat
            have h2 : d ≤ distanceTo tc card := by simpa [ltClosest] using hlt'
            exact lt_of_lt_of_le h1 h2
        refine ⟨j + 1, c, by simpa using hj, ?_, hbeat, ?_⟩
        · rw [hstep, heq]; congr 1; omega
        · intro j' c' hj'
          cases j' with
          | zero =>
            simp at hj'
            subst hj'
            exact ⟨le_of_lt hcl, fun _ => hcl⟩
          | succ m =>
            have := hmin m c' (by simpa using hj')
            exact ⟨this.1, fun h => this.2 (by omega)⟩

/-- On a non-empty list `closestIndex` is the first card of least distance to
the track centre. -/
theorem closestIndex_spec (t : Track) (cards : List Card) (hne : cards ≠ []) :
    ∃ c : Card, cards.get? (closestIndex t cards) = some c ∧
      ∀ (j : Nat) (c' : Card), cards.get? j = some c' →
        distanceTo (trackCenterOf t) c ≤ distanceTo (trackCenterOf t) c' ∧
        (j < closestIndex t cards →
          distanceTo (trackCenterOf t) c < distanceTo (trackCenterOf t) c') := by
  rcases closestFrom_spec (trackCenterOf t) cards 0 0 none with ⟨_, hall⟩ | ⟨j, c, hj, heq, _, hmin⟩
  · cases cards with
    | nil => exact absurd rfl hne
    | cons card rest =>
      have := hall card (List.mem_cons_self _ _)
      simp [ltClosest] at this
  · have hci : closestIndex t cards = j := by
      simp [closestIndex, heq]
    rw [hci]
    exact ⟨c, hj, hmin⟩

/-- On a non-empty list `closestIndex` is an index of the list. -/
theorem closestIndex_lt (t : Track) (cards : List Card) (hne : cards ≠ []) :
    closestIndex t cards < cards.length := by
  obtain ⟨c, hc, _⟩ := closestIndex_spec t cards hne
  by_contra h
  rw [List.get?_eq_none.mpr (by omega)] at hc
  cases hc

/-- The index stored by `detectCurrentSlide` when the track exists. -/
theorem detectCurrentSlide_currentSlide (t : Track) (cards : List Card) (st : SliderState) :
    (detectCurrentSlide (some t) cards st).1.currentSlide = (closestIndex t cards : Int) := by
  unfold detectCurrentSlide
  by_cases h : (closestIndex t cards : Int) ≠ st.currentSlide
  · simp [h, updateDots]
  · have h' : (closestIndex t cards : Int) = st.currentSlide := by simpa using h
    simp [h']

/-- On whole pixels the distance computed by the loop is the exact distance
between the two centres. -/
theorem distanceTo_exact (t : Track) (cards : List Card) (hw : WholePixels t cards)
    (c : Card) (hc : c ∈ cards) :
    distanceTo (trackCenterOf t) c =
      |(t.scrollLeft + t.offsetWidth / 2) - (c.offsetLeft + c.offsetWidth / 2)| := by
  obtain ⟨⟨s, w, hs, hw1, hsb, hwb⟩, hcards⟩ := hw
  obtain ⟨a, v, ha, hv, hab, hvb⟩ := hcards c hc
  unfold distanceTo trackCenterOf cardCenter
  rw [hs, hw1, ha, hv, center_exact s w hsb hwb, center_exact a v hab hvb,
    centerDifference_exact s w a v hsb hwb hab hvb]

/-- C2 as stated fails: with the track scrolled by `2^-60` pixel, the track
centre `2^-60 + 150` is computed as `150`, the two cards of centres `100` and
`200` tie at the computed distance `50`, and `detectCurrentSlide` stores index
`0`, although the second card is strictly closer to the track centre. -/
theorem detectCurrentSlide_not_exact_minimum :
    (detectCurrentSlide (some (Track.mk (1 / 2 ^ 60) 300 300))
      [Card.mk 0 200 200, Card.mk 100 200 200]
      (SliderState.mk 1 [false, true] none)).1.currentSlide = 0 ∧
    |((1 / 2 ^ 60 : ℚ) + 300 / 2) - (100 + 200 / 2)| <
      |((1 / 2 ^ 60 : ℚ) + 300 / 2) - (0 + 200 / 2)| := by
  have h150 : roundDouble (300 / 2) = 150 := by
    have := roundDouble_intCast 150 (by norm_num) (by norm_num)
    norm_num at this ⊢
    exact this
  have h100 : roundDouble (200 / 2) = 100 := by
    have := roundDouble_intCast 100 (by norm_num) (by norm_num)
    norm_num at this ⊢
    exact this
  have h0100 : roundDouble (0 + 100) = 100 := by
    have := roundDouble_intCast 100 (by norm_num) (by norm_num)
    norm_num at this ⊢
    exact this
  have h200 : roundDouble (100 + 100) = 200 := by
    have := roundDouble_intCast 200 (by norm_num) (by norm_num)
    norm_num at this ⊢
    exact this
  have h50 : roundDouble (150 - 100) = 50 := by
    have := roundDouble_intCast 50 (by norm_num) (by norm_num)
    norm_num at this ⊢
    exact this
  have hm50 : roundDouble (150 - 200) = -50 := by
    have := roundDouble_intCast (-50) (by norm_num) (by norm_num)
    norm_num at this ⊢
    exact this
  have htc : roundDouble (1 / 2 ^ 60 + 150) = 150 := by
    have h := roundDouble_eval_pos (1 / 2 ^ 60 + 150) 7 (150 * 2 ^ 45) (by norm_num)
      (by norm_num) (by norm_num) (by norm_num) (by norm_num)
    rw [h]
    norm_num
  have hcentre : trackCenterOf (Track.mk (1 / 2 ^ 60) 300 300) = 150 := by
    show roundDouble (1 / 2 ^ 60 + roundDouble (300 / 2)) = 150
    rw [h150, htc]
  have hd0 : distanceTo 150 (Card.mk 0 200 200) = 50 := by
    show |roundDouble (150 - roundDouble (0 + roundDouble (200 / 2)))| = 50
    rw [h100, h0100, h50]
    norm_num
  have hd1 : distanceTo 150 (Card.mk 100 200 200) = 50 := by
    show |roundDouble (150 - roundDouble (100 + roundDouble (200 / 2)))| = 50
    rw [h100, h200, hm50]
    norm_num
  constructor
  · rw [detectCurrentSlide_currentSlide, closestIndex, hcentre]
    simp [closestFrom, hd0, hd1, ltClosest]
  · rw [abs_of_neg (by norm_num), abs_of_pos (by norm_num)]
    norm_num

/-- C2, amended: for a non-empty list of cards, `detectCurrentSlide` runs to its
end and leaves in `currentSlide` an index `i` of a card whose distance to the
track centre, as computed in double arithmetic by
`Math.abs(trackCenter - cardCenter)`, is least among all cards and strictly
less than that of every card of lower index; on whole pixels (integer
`scrollLeft`, `offsetLeft` and `offsetWidth` up to `2^50`) this holds of the
exact distance between `offsetLeft + offsetWidth/2` and
`scrollLeft + offsetWidth/2`. -/
theorem detectCurrentSlide_first_minimum (t : Track) (cards : List Card) (st : SliderState)
    (hne : cards ≠ []) :
    (detectCurrentSlide (some t) cards st).2 = Completion.normal ∧
    ∃ (i : Nat) (c : Card),
      (detectCurrentSlide (some t) cards st).1.currentSlide = (i : Int) ∧
      cards.get? i = some c ∧
      (∀ (j : Nat) (c' : Card), cards.get? j = some c' →
        |roundDouble (roundDouble (t.scrollLeft + roundDouble (t.offsetWidth / 2)) -
            roundDouble (c.offsetLeft + roundDouble (c.offsetWidth / 2)))| ≤
          |roundDouble (roundDouble (t.scrollLeft + roundDouble (t.offsetWidth / 2)) -
            roundDouble (c'.offsetLeft + roundDouble (c'.offsetWidth / 2)))| ∧
        (j < i →
          |roundDouble (roundDouble (t.scrollLeft + roundDouble (t.offsetWidth / 2)) -
              roundDouble (c.offsetLeft + roundDouble (c.offsetWidth / 2)))| <
            |roundDouble (roundDouble (t.scrollLeft + roundDouble (t.offsetWidth / 2)) -
              roundDouble (c'.offsetLeft + roundDouble (c'.offsetWidth / 2)))|)) ∧
      (WholePixels t cards →
        ∀ (j : Nat) (c' : Card), cards.get? j = some c' →
          |(t.scrollLeft + t.offsetWidth / 2) - (c.offsetLeft + c.offsetWidth / 2)| ≤
            |(t.scrollLeft + t.offsetWidth / 2) - (c'.offsetLeft + c'.offsetWidth / 2)| ∧
          (j < i →
            |(t.scrollLeft + t.offsetWidth / 2) - (c.offsetLeft + c.offsetWidth / 2)| <
              |(t.scrollLeft + t.offsetWidth / 2) - (c'.offsetLeft + c'.offsetWidth / 2)|)) := by
  refine ⟨?_, ?_⟩
  · unfold detectCurrentSlide
    simp only []
    split <;> rfl
  · obtain ⟨c, hc, hmin⟩ := closestIndex_spec t cards hne
    refine ⟨closestIndex t cards, c, detectCurrentSlide_currentSlide t cards st, hc, hmin, ?_⟩
    intro hw j c' hj
    have h := hmin j c' hj
    rw [distanceTo_exact t cards hw c (List.get?_mem hc),
      distanceTo_exact t cards hw c' (List.get?_mem hj)] at h
    exact h

/-- Witness of the amended C2: three cards and a track scrolled between the
first two. -/
theorem detectCurrentSlide_first_minimum_witness :
    [Card.mk 0 300 300, Card.mk 320 300 300, Card.mk 640 300 300] ≠ [] ∧
    (detectCurrentSlide (some (Track.mk 160 300 300))
      [Card.mk 0 300 300, Card.mk 320 300 300, Card.mk 640 300 300]
      (SliderState.mk 2 [false, false, true] none)).2 = Completion.normal :=
  ⟨by simp,
   (detectCurrentSlide_first_minimum (Track.mk 160 300 300)
      [Card.mk 0 300 300, Card.mk 320 300 300, Card.mk 640 300 300]
      (SliderState.mk 2 [false, false, true] none) (by simp)).1⟩

/-- C3: `detectCurrentSlide` is idempotent: on a fixed geometry, running it on
the state it produced gives that same state (same `currentSlide`, same dot
flags) and the same completion. -/
theorem detectCurrentSlide_idempotent (track : Option Track) (cards : List Card)
    (st : SliderState) :
    detectCurrentSlide track cards (detectCurrentSlide track cards st).1 =
      detectCurrentSlide track cards st := by
  cases track with
  | none => rfl
  | some t =>
    by_cases h : (closestIndex t cards : Int) ≠ st.currentSlide
    · simp [detectCurrentSlide, h, updateDots]
    · have h' : (closestIndex t cards : Int) = st.currentSlide := by simpa using h
      simp [detectCurrentSlide, h']

/-- Length of the dot list after `updateDots`. -/
theorem updateDotsFrom_length (cur : Int) : ∀ (l : List Bool) (k : Nat),
    (updateDotsFrom cur k l).length = l.length := by
  intro l
  induction l with
  | nil => intro k; rfl
  | cons b rest ih => intro k; simp [updateDotsFrom, ih]

/-- Flag of each dot after `updateDots`. -/
theorem updateDotsFrom_flag (cur : Int) : ∀ (l : List Bool) (k i : Nat), i < l.length →
    (updateDotsFrom cur k l).get? i = some (decide (((k + i : Nat) : Int) = cur)) := by
  intro l
  induction l with
  | nil => intro k i hi; simp at hi
  | cons b rest ih =>
    intro k i hi
    cases i with
    | zero => simp [updateDotsFrom]
    | succ m =>
      have hm : m < rest.length := by simpa using hi
      have := ih (k + 1) m hm
      simp only [updateDotsFrom, List.get?_cons_succ, this]
      congr 3
      omega

/-- After `updateDots` on a state whose `currentSlide` is in range the dots
are synchronised. -/
theorem updateDots_synced (n : Nat) (st : SliderState) (h0 : 0 ≤ st.currentSlide)
    (h1 : st.currentSlide < (n : Int)) (hd : st.dots.length = n) :
    DotsSynced n (updateDots st) := by
  refine ⟨h0, h1, ?_, ?_⟩
  · simp [updateDots, updateDotsFrom_length, hd]
  · intro i hi
    have := updateDotsFrom_flag st.currentSlide st.dots 0 i (by omega)
    simpa [updateDots] using this

/-- A list of flags in which position `i` is set exactly when `k + i = cur` has
one set flag if `cur` falls in `[k, k + length)`, none otherwise. -/
theorem count_active_of_pointwise (cur : Int) : ∀ (l : List Bool) (k : Nat),
    (∀ i : Nat, i < l.length → l.get? i = some (decide (((k + i : Nat) : Int) = cur))) →
    l.count true = if (k : Int) ≤ cur ∧ cur < (k : Int) + (l.length : Int) then 1 else 0 := by
  intro l
  induction l with
  | nil =>
    intro k _
    have hno : ¬ ((k : Int) ≤ cur ∧ cur < (k : Int) + (([] : List Bool).length : Int)) := by
      simp only [List.length_nil, Nat.cast_zero, add_zero]
      omega
    rw [if_neg hno]
    rfl
  | cons b rest ih =>
    intro k h
    have hb : b = decide ((k : Int) = cur) := by
      have := h 0 (by simp)
      simpa using this
    have hrest : ∀ i : Nat, i < rest.length →
        rest.get? i = some (decide ((((k + 1) + i : Nat) : Int) = cur)) := by
      intro i hi
      have := h (i + 1) (by simpa using hi)
      simp only [List.get?_cons_succ] at this
      rw [this]
      congr 3
      omega
    have hc := ih (k + 1) hrest
    rw [List.count_cons, hc, hb]
    simp only [List.length_cons, Nat.cast_add, Nat.cast_one]
    by_cases hk : (k : Int) = cur
    · simp [hk]
    · simp only [hk, decide_False]
      split_ifs <;> first | rfl | omega | simp_all

/-- Synchronised dots have exactly one active dot. -/
theorem dotsSynced_count_active {n : Nat} {st : SliderState} (h : DotsSynced n st) :
    st.dots.count true = 1 := by
  obtain ⟨h0, h1, hd, hp⟩ := h
  have := count_active_of_pointwise st.currentSlide st.dots 0 (by
    intro i hi
    have := hp i (by omega)
    simpa using this)
  rw [this, if_pos]
  constructor
  · simpa using h0
  · simp [hd, h1]

/-- C9 as stated fails: with three cards, three dots and no `.slider-track`,
the "next" handler stores `currentSlide = 1` and stops on a `TypeError`
before `updateDots`, so the first dot stays the active one. -/
theorem scrollToSlide_without_track_unsynced :
    (nextClick none [Card.mk 0 300 300, Card.mk 320 300 300, Card.mk 640 300 300]
      (SliderState.mk 0 [true, false, false] none)) =
      (SliderState.mk 1 [true, false, false] none, Completion.typeError) ∧
    ¬ DotsSynced 3 (nextClick none
      [Card.mk 0 300 300, Card.mk 320 300 300, Card.mk 640 300 300]
      (SliderState.mk 0 [true, false, false] none)).1 := by
  have hrun : nextClick none [Card.mk 0 300 300, Card.mk 320 300 300, Card.mk 640 300 300]
      (SliderState.mk 0 [true, false, false] none) =
      (SliderState.mk 1 [true, false, false] none, Completion.typeError) := by
    simp [nextClick, scrollToSlide]
  refine ⟨hrun, ?_⟩
  rw [hrun]
  intro h
  have h0 := h.2.2.2 0 (by decide)
  simp at h0

/-- C9, amended: in a slider with its track, `n ≥ 1` cards and `n` dots, every
`scrollToSlide` call
runs to its end and leaves the dots synchronised (dot `i` active iff
`i = currentSlide`, `0 ≤ currentSlide < n`), synchronised dots are kept so by
every further `scrollToSlide` and `detectCurrentSlide`, whatever the geometry,
and synchronised dots have exactly one active dot. -/
theorem dots_synced_invariant (n : Nat) (hn : 1 ≤ n) :
    (∀ (t : Track) (cards : List Card) (st : SliderState) (index : Int),
      cards.length = n → st.dots.length = n →
        (scrollToSlide (some t) cards st index).2 = Completion.normal ∧
        DotsSynced n (scrollToSlide (some t) cards st index).1) ∧
    (∀ (t : Track) (cards : List Card) (st : SliderState),
      cards.length = n → DotsSynced n st →
        (detectCurrentSlide (some t) cards st).2 = Completion.normal ∧
        DotsSynced n (detectCurrentSlide (some t) cards st).1) ∧
    (∀ st : SliderState, DotsSynced n st → st.dots.count true = 1) := by
  refine ⟨?_, ?_, fun _ h => dotsSynced_count_active h⟩
  · intro t cards st index hc hd
    have hN : 1 ≤ cards.length := by omega
    refine ⟨scrollToSlide_normal t cards st index hN, ?_⟩
    have hcur := scrollToSlide_currentSlide (some t) cards st index
    have hr : ∃ c, cardAt cards (if index < 0 then (cards.length : Int) - 1
        else if index ≥ (cards.length : Int) then 0 else index) = some c := by
      apply cardAt_isSome <;> split_ifs <;> omega
    obtain ⟨c, hcard⟩ := hr
    have hst : (scrollToSlide (some t) cards st index).1 =
        updateDots { st with
          currentSlide := (if index < 0 then (cards.length : Int) - 1
            else if index ≥ (cards.length : Int) then 0 else index),
          scrollRequest := some (roundDouble
            (roundDouble (c.offsetLeft - roundDouble (t.rectWidth / 2)) +
              roundDouble (c.rectWidth / 2))) } := by
      simp only [scrollToSlide, hcard]
    rw [hst]
    apply updateDots_synced
    · show 0 ≤ (if index < 0 then (cards.length : Int) - 1
        else if index ≥ (cards.length : Int) then 0 else index)
      split_ifs <;> omega
    · show (if index < 0 then (cards.length : Int) - 1
        else if index ≥ (cards.length : Int) then 0 else index) < (n : Int)
      split_ifs <;> omega
    · exact hd
  · intro t cards st hc hs
    have hne : cards ≠ [] := by
      intro h
      rw [h] at hc
      simp at hc
      omega
    have hlt := closestIndex_lt t cards hne
    unfold detectCurrentSlide
    by_cases h : (closestIndex t cards : Int) ≠ st.currentSlide
    · simp only [h, if_true, true_and, ne_eq, not_false_eq_true]
      apply updateDots_synced
      · show (0 : Int) ≤ (closestIndex t cards : Int)
        omega
      · show (closestIndex t cards : Int) < (n : Int)
        omega
      · exact hs.2.2.1
    · have h' : (closestIndex t cards : Int) = st.currentSlide := by simpa using h
      simp [h', hs]

/-- Witness of the amended C9: three cards, three dots, none of them active, and
`scrollToSlide(1)`. -/
theorem dots_synced_invariant_witness :
    1 ≤ 3 ∧
    DotsSynced 3 (scrollToSlide (some (Track.mk 0 900 900))
      [Card.mk 0 300 300, Card.mk 320 300 300, Card.mk 640 300 300]
      (SliderState.mk 0 [false, false, false] none) 1).1 :=
  ⟨by decide,
   ((dots_synced_invariant 3 (by decide)).1 (Track.mk 0 900 900)
      [Card.mk 0 300 300, Card.mk 320 300 300, Card.mk 640 300 300]
      (SliderState.mk 0 [false, false, false] none) 1 rfl rfl).2⟩

/-! ## Properties of the modal -/

/-- C4: from any state `openModal` gives `active` with overflow `hidden`; the
close-button click, a click whose target is the modal itself, and an `Escape`
keydown while the modal is active each give not `active` with overflow `''`. -/
theorem modal_open_close (st : ModalState) (overflow : String) :
    openModal st = ModalState.mk true "hidden" ∧
    closeBtnClick st = ModalState.mk false "" ∧
    modalClick true st = ModalState.mk false "" ∧
    documentKeydown "Escape" (ModalState.mk true overflow) = ModalState.mk false "" := by
  refine ⟨rfl, rfl, rfl, ?_⟩
  simp [documentKeydown, closeModal]

/-! ## Properties of the initialisers -/

/-- C7, the code at the failing inputs: without `.nav-header`,
`initNavigation` stops on a `TypeError` before the menu and link listeners;
with the section but no `.models-slider`, and with the slider but no
`.slider-track`, `initSlider` stops on a `TypeError`; with a track and no
card, the initial timer of `initSlider` stops on a `TypeError`. -/
theorem init_throws_on_absent_element :
    initNavigation (NavDom.mk none true true 0) =
      (NavListeners.mk true false false, none, Completion.typeError) ∧
    (initSlider (SliderDom.mk (some none))).2 = Completion.typeError ∧
    (initSlider (SliderDom.mk (some (some
      (SliderElement.mk none [Card.mk 0 300 300] true true))))).2 = Completion.typeError ∧
    (initialScroll (some (Track.mk 0 900 900)) []
      (SliderState.mk 0 [] none)).2 = Completion.typeError := by
  refine ⟨rfl, rfl, rfl, rfl⟩

/-! ## Properties of the colour swatches -/

/-- No swatch is active after the `remove` loop. -/
theorem removeActiveAll_countP (l : List Swatch) :
    (removeActiveAll l).countP (fun s => s.active) = 0 := by
  induction l with
  | nil => rfl
  | cons s rest ih =>
    have : removeActiveAll (s :: rest) = { s with active := false } :: removeActiveAll rest := rfl
    rw [this, List.countP_cons_of_neg _ _ (by simp), ih]

/-- Flag of each swatch after the `remove` loop. -/
theorem removeActiveAll_flag (l : List Swatch) (j : Nat) (hj : j < l.length) :
    ((removeActiveAll l).get? j).map Swatch.active = some false := by
  simp only [removeActiveAll, List.get?_eq_getElem?, List.getElem?_map, Option.map_map]
  rw [List.getElem?_eq_getElem hj]
  rfl

/-- Flag of each swatch after the click: active exactly at the clicked
position. -/
theorem addActiveAt_flag : ∀ (l : List Swatch) (i j : Nat), i < l.length → j < l.length →
    ((addActiveAt i (removeActiveAll l)).get? j).map Swatch.active = some (decide (j = i)) := by
  intro l
  induction l with
  | nil => intro i j hi; simp at hi
  | cons s rest ih =>
    intro i j hi hj
    have hcons : removeActiveAll (s :: rest) =
        { s with active := false } :: removeActiveAll rest := rfl
    rw [hcons]
    cases i with
    | zero =>
      cases j with
      | zero => simp [addActiveAt]
      | succ m =>
        have hm : m < rest.length := by simpa using hj
        have := removeActiveAll_flag rest m hm
        simpa [addActiveAt] using this
    | succ k =>
      have hk : k < rest.length := by simpa using hi
      cases j with
      | zero => simp [addActiveAt]
      | succ m =>
        have hm : m < rest.length := by simpa using hj
        have := ih k m hk hm
        simpa [addActiveAt] using this

/-- Exactly one swatch is active after the click. -/
theorem addActiveAt_countP : ∀ (l : List Swatch) (i : Nat), i < l.length →
    (addActiveAt i (removeActiveAll l)).countP (fun s => s.active) = 1 := by
  intro l
  induction l with
  | nil => intro i hi; simp at hi
  | cons s rest ih =>
    intro i hi
    have hcons : removeActiveAll (s :: rest) =
        { s with active := false } :: removeActiveAll rest := rfl
    rw [hcons]
    cases i with
    | zero =>
      simp only [addActiveAt]
      rw [List.countP_cons_of_pos _ _ (by simp), removeActiveAll_countP]
    | succ k =>
      have hk : k < rest.length := by simpa using hi
      simp only [addActiveAt]
      rw [List.countP_cons_of_neg _ _ (by simp), ih k hk]

/-- The swatches left by the colour selector are those left by the plain
swatch handler. -/
theorem colorSelectorClick_swatches (swatches : List Swatch) (i : Nat) :
    (colorSelectorClick swatches i).1 = addActiveAt i (removeActiveAll swatches) := by
  unfold colorSelectorClick
  simp only []
  split
  · rfl
  · split
    · rfl
    · split <;> rfl

/-- C5 as stated fails: the click handler of `initColorSwatches` makes no
assignment to an image `src`, and neither does the handler of
`initColorSelector` on a swatch without `data-image`. -/
theorem swatch_click_without_src_write :
    srcWrites (swatchClick
      [Swatch.mk true (some "white.png") (some "white"),
       Swatch.mk false (some "red.png") (some "red")] 1).2 = [] ∧
    srcWrites (colorSelectorWrites String.toUpper
      [Swatch.mk true (some "white.png") (some "white"),
       Swatch.mk false none (some "red")] 1) = [] ∧
    (srcWrites (swatchClick
      [Swatch.mk true (some "white.png") (some "white"),
       Swatch.mk false (some "red.png") (some "red")] 1).2).length ≠ 1 := by
  refine ⟨rfl, rfl, by decide⟩

/-- C5, amended: for every group of swatches and every swatch of it, the click
handlers of `initColorSwatches` and of `initColorSelector` leave that swatch
active and every other one inactive, so exactly one is active; the handler of
`initColorSwatches` assigns no image source; the handler of `initColorSelector`
with its timer assigns `src` exactly once, to the swatch's `data-image`, when
that attribute is a non-empty string, and not at all when it is absent or
empty. -/
theorem swatch_click_single_active (toUpperCase : String → String) (swatches : List Swatch)
    (i : Nat) (hi : i < swatches.length) :
    (∀ j : Nat, j < swatches.length →
      ((swatchClick swatches i).1.get? j).map Swatch.active = some (decide (j = i)) ∧
      ((colorSelectorClick swatches i).1.get? j).map Swatch.active = some (decide (j = i))) ∧
    (swatchClick swatches i).1.countP (fun s => s.active) = 1 ∧
    (colorSelectorClick swatches i).1.countP (fun s => s.active) = 1 ∧
    srcWrites (swatchClick swatches i).2 = [] ∧
    (∀ (swatch : Swatch) (image : String), swatches.get? i = some swatch →
      swatch.dataImage = some image → image ≠ "" →
      srcWrites (colorSelectorWrites toUpperCase swatches i) = [image]) ∧
    (∀ swatch : Swatch, swatches.get? i = some swatch →
      swatch.dataImage = none ∨ swatch.dataImage = some "" →
      srcWrites (colorSelectorWrites toUpperCase swatches i) = []) := by
  refine ⟨?_, ?_, ?_, rfl, ?_, ?_⟩
  · intro j hj
    rw [colorSelectorClick_swatches]
    exact ⟨addActiveAt_flag swatches i j hi hj, addActiveAt_flag swatches i j hi hj⟩
  · exact addActiveAt_countP swatches i hi
  · rw [colorSelectorClick_swatches]
    exact addActiveAt_countP swatches i hi
  · intro swatch image hsw himg hne
    simp only [colorSelectorWrites, colorSelectorClick, hsw, himg, truthy]
    simp only [ne_eq, hne, not_false_eq_true, decide_True, if_true]
    cases hc : swatch.dataColor <;> simp [swapTimerFire, srcWrites]
  · intro swatch hsw himg
    rcases himg with himg | himg
    · simp only [colorSelectorWrites, colorSelectorClick, hsw, himg]
      rfl
    · simp only [colorSelectorWrites, colorSelectorClick, hsw, himg, truthy]
      simp [srcWrites]

/-- Witness of the amended C5: three swatches, a click on the second. -/
theorem swatch_click_single_active_witness :
    1 < [Swatch.mk true (some "white.png") (some "white"),
         Swatch.mk false (some "red.png") (some "red"),
         Swatch.mk false none none].length ∧
    (swatchClick
      [Swatch.mk true (some "white.png") (some "white"),
       Swatch.mk false (some "red.png") (some "red"),
       Swatch.mk false none none] 1).1.countP (fun s => s.active) = 1 :=
  ⟨by decide,
   (swatch_click_single_active String.toUpper
      [Swatch.mk true (some "white.png") (some "white"),
       Swatch.mk false (some "red.png") (some "red"),
       Swatch.mk false none none] 1 (by decide)).2.1⟩

/-! ## Properties of the stats counter -/

/-- A whole number is not decimal. -/
theorem isDecimal_intCast (z : Int) : isDecimal (z : ℚ) = false := by
  simp [isDecimal, jsRem, truncate]

/-- A number that is not whole is decimal. -/
theorem isDecimal_of_not_whole (target : ℚ) (h : target ≠ (⌊target⌋ : ℚ)) :
    isDecimal target = true := by
  simp only [isDecimal, jsRem, decide_eq_true_eq, ne_eq, div_one, one_mul]
  intro h0
  have ht : target = ((truncate target : Int) : ℚ) := by linarith
  apply h
  rw [ht]
  simp

/-- The computed `progress` is `1` once `2000` ms have elapsed. -/
theorem progress_eq_one (startTime currentTime : ℚ) (h : 2000 ≤ currentTime - startTime) :
    min (roundDouble (roundDouble (currentTime - startTime) / duration)) 1 = 1 := by
  have hel : (2000 : ℚ) ≤ roundDouble (currentTime - startTime) := by
    have := le_roundDouble_of_dyadic (currentTime - startTime) 2000 0 (by norm_num)
      (by norm_num) (by norm_num) (by simpa using h)
    simpa using this
  have h1 : (1 : ℚ) ≤ roundDouble (currentTime - startTime) / duration := by
    rw [le_div_iff₀ (by norm_num [duration])]
    simpa [duration] using hel
  have hq := le_roundDouble_of_dyadic _ 1 0 (by norm_num) (by norm_num) (by norm_num)
    (by simpa using h1)
  exact min_eq_right (by simpa using hq)

/-- The run of `updateCounter` on a frame at least `2000` ms after the start. -/
theorem updateCounter_after_duration (toLocaleString : Int → String)
    (target startTime currentTime : ℚ) (h : 2000 ≤ currentTime - startTime) :
    updateCounter toLocaleString target startTime currentTime =
      (if isDecimal target then toFixed1 target else toLocaleString ⌊target⌋, false) := by
  have hp := progress_eq_one startTime currentTime h
  simp only [updateCounter, hp, lt_self_iff_false, if_false]

/-- The text of `toFixed(1)` is a sign, the digits of a natural number, a point
and one digit, and the number it writes is within one twentieth of the
magnitude. -/
theorem toFixed1_one_decimal (x : ℚ) :
    ∃ k d : Nat, d < 10 ∧
      toFixed1 x = (if x < 0 then "-" else "") ++ Nat.repr k ++ "." ++ Nat.repr d ∧
      |(|x|) - ((k : ℚ) + (d : ℚ) / 10)| ≤ 1 / 20 := by
  have hy : (if x < 0 then -x else x) = |x| := by
    split_ifs with hx
    · exact (abs_of_neg hx).symm
    · exact (abs_of_nonneg (not_lt.mp hx)).symm
  have hnonneg : (0 : ℚ) ≤ |x| * 10 + 1 / 2 := by
    have := abs_nonneg x
    linarith
  have hfloor : (0 : Int) ≤ ⌊|x| * 10 + 1 / 2⌋ := Int.floor_nonneg.mpr hnonneg
  have hcast : (((⌊|x| * 10 + 1 / 2⌋).toNat : Nat) : ℚ) =
      ((⌊|x| * 10 + 1 / 2⌋ : Int) : ℚ) := by
    have := Int.toNat_of_nonneg hfloor
    exact_mod_cast this
  have hle := Int.floor_le (|x| * 10 + 1 / 2)
  have hlt := Int.lt_floor_add_one (|x| * 10 + 1 / 2)
  refine ⟨(⌊|x| * 10 + 1 / 2⌋).toNat / 10, (⌊|x| * 10 + 1 / 2⌋).toNat % 10,
    Nat.mod_lt _ (by norm_num), ?_, ?_⟩
  · simp only [toFixed1, hy]
  · have hsplit : ((((⌊|x| * 10 + 1 / 2⌋).toNat / 10 : Nat) : ℚ) +
        (((⌊|x| * 10 + 1 / 2⌋).toNat % 10 : Nat) : ℚ) / 10) =
        (((⌊|x| * 10 + 1 / 2⌋).toNat : Nat) : ℚ) / 10 := by
      have := Nat.div_add_mod (⌊|x| * 10 + 1 / 2⌋).toNat 10
      have hq : ((10 * ((⌊|x| * 10 + 1 / 2⌋).toNat / 10) +
          (⌊|x| * 10 + 1 / 2⌋).toNat % 10 : Nat) : ℚ) =
          (((⌊|x| * 10 + 1 / 2⌋).toNat : Nat) : ℚ) := by
        exact_mod_cast this
      push_cast at hq
      linarith
    rw [hsplit, hcast, abs_le]
    constructor <;> linarith

/-- The grouped digits read most significant first: a first group of at most
three digits, not empty when further groups follow, then groups of exactly
three digits, each after a separator; without the separators they are the
digits given. -/
theorem groupReversed_groups (sep : Char) : ∀ r : List Char,
    ∃ (first : List Char) (others : List (List Char)),
      (groupReversed sep r).reverse = first ++ (others.map (fun g => sep :: g)).flatten ∧
      first ++ others.flatten = r.reverse ∧
      first.length ≤ 3 ∧
      (r ≠ [] → 1 ≤ first.length) ∧
      ∀ g ∈ others, g.length = 3
  | [] => ⟨[], [], by simp [groupReversed]⟩
  | [a] => ⟨[a], [], by simp [groupReversed]⟩
  | [a, b] => ⟨[b, a], [], by simp [groupReversed]⟩
  | [a, b, c] => ⟨[c, b, a], [], by simp [groupReversed]⟩
  | a :: b :: c :: d :: rest => by
    obtain ⟨first, others, h1, h2, h3, h4, h5⟩ := groupReversed_groups sep (d :: rest)
    refine ⟨first, others ++ [[c, b, a]], ?_, ?_, h3, fun _ => h4 (by simp), ?_⟩
    · have hstep : groupReversed sep (a :: b :: c :: d :: rest) =
          a :: b :: c :: sep :: groupReversed sep (d :: rest) := by
        simp [groupReversed]
      rw [hstep]
      simp only [List.reverse_cons, h1, List.map_append, List.flatten_append, List.map_cons,
        List.map_nil, List.flatten_cons, List.flatten_nil, List.append_assoc, List.cons_append,
        List.nil_append, List.append_nil]
    · simp only [List.flatten_append, List.flatten_cons, List.flatten_nil, List.append_nil,
        List.reverse_cons, List.append_assoc, List.cons_append, List.nil_append]
      rw [← List.append_assoc, h2]
      simp
    · intro g hg
      rcases List.mem_append.mp hg with h | h
      · exact h5 g h
      · simp at h
        subst h
        rfl

/-- The text of a grouped integer: a sign, then the decimal digits of the
magnitude cut into groups of three from the right, the groups joined by the
separator. -/
theorem groupedInteger_groups (sep : Char) (z : Int) :
    ∃ (first : List Char) (others : List (List Char)),
      groupedInteger sep z = (if z < 0 then "-" else "") ++
        String.mk (first ++ (others.map (fun g => sep :: g)).flatten) ∧
      first ++ others.flatten = (Nat.repr z.natAbs).data ∧
      first.length ≤ 3 ∧
      (others ≠ [] → 1 ≤ first.length) ∧
      ∀ g ∈ others, g.length = 3 := by
  obtain ⟨first, others, h1, h2, h3, h4, h5⟩ :=
    groupReversed_groups sep (Nat.repr z.natAbs).data.reverse
  refine ⟨first, others, ?_, by simpa using h2, h3, ?_, h5⟩
  · simp only [groupedInteger, h1]
  · intro hne
    apply h4
    intro hr
    cases others with
    | nil => exact hne rfl
    | cons g gs =>
      have hg := h5 g (by simp)
      have hlen : (first ++ (g :: gs).flatten).length = 0 := by
        rw [h2, hr]
        rfl
      simp only [List.length_append, List.flatten_cons] at hlen
      omega

/-- C6 as stated fails: in a host whose default locale is `de-DE`, the final
text for target `1234` is `"1.234"`, not `"1,234"`. -/
theorem updateCounter_de_DE_text :
    (updateCounter toLocaleStringDeDE 1234 0 2000).1 = "1.234" ∧
    (updateCounter toLocaleStringDeDE 1234 0 2000).1 ≠ "1,234" := by
  have hrun := updateCounter_after_duration toLocaleStringDeDE 1234 0 2000 (by norm_num)
  have h1 : isDecimal (1234 : ℚ) = false := by
    have := isDecimal_intCast 1234
    simpa using this
  have h2 : ⌊(1234 : ℚ)⌋ = 1234 := by norm_num
  rw [hrun, h1, h2]
  constructor <;> decide

/-- C6, amended: on a frame with `elapsed ≥ 2000` the run of `updateCounter`
asks for no further frame and leaves as text the formatting of the target.
For a whole target it is the host's `toLocaleString` of that integer; in an
`en-US` host, for a target of magnitude below `2^53`, this is the sign and the
decimal digits in groups of three from the right joined by commas (`1234`
gives `"1,234"`).  For a target with a fractional part it is
`target.toFixed(1)`: sign, integer digits, a point and exactly one digit, the
number written being within `0.05` of the target (`4.5` gives `"4.5"`). -/
theorem updateCounter_final_text (toLocaleString : Int → String)
    (target startTime currentTime : ℚ) (h : 2000 ≤ currentTime - startTime) :
    (updateCounter toLocaleString target startTime currentTime).2 = false ∧
    (∀ z : Int, target = (z : ℚ) →
      (updateCounter toLocaleString target startTime currentTime).1 = toLocaleString z) ∧
    (∀ z : Int, target = (z : ℚ) → |z| < 2 ^ 53 →
      ∃ (first : List Char) (others : List (List Char)),
        (updateCounter toLocaleStringEnUS target startTime currentTime).1 =
          (if z < 0 then "-" else "") ++
            String.mk (first ++ (others.map (fun g => ',' :: g)).flatten) ∧
        first ++ others.flatten = (Nat.repr z.natAbs).data ∧
        first.length ≤ 3 ∧
        (others ≠ [] → 1 ≤ first.length) ∧
        ∀ g ∈ others, g.length = 3) ∧
    (target ≠ (⌊target⌋ : ℚ) →
      ∃ k d : Nat, d < 10 ∧
        (updateCounter toLocaleString target startTime currentTime).1 =
          (if target < 0 then "-" else "") ++ Nat.repr k ++ "." ++ Nat.repr d ∧
        |(|target|) - ((k : ℚ) + (d : ℚ) / 10)| ≤ 1 / 20) ∧
    (updateCounter toLocaleStringEnUS 1234 startTime currentTime).1 = "1,234" ∧
    (updateCounter toLocaleStringEnUS (9 / 2) startTime currentTime).1 = "4.5" := by
  have hrun := updateCounter_after_duration toLocaleString target startTime currentTime h
  refine ⟨by rw [hrun], ?_, ?_, ?_, ?_, ?_⟩
  · intro z hz
    rw [hrun, hz, isDecimal_intCast]
    simp
  · intro z hz _
    rw [updateCounter_after_duration toLocaleStringEnUS target startTime currentTime h, hz,
      isDecimal_intCast]
    simp only [Bool.false_eq_true, if_false, Int.floor_intCast]
    exact groupedInteger_groups ',' z
  · intro hz
    rw [hrun, isDecimal_of_not_whole target hz]
    simp only [if_true]
    exact toFixed1_one_decimal target
  · rw [updateCounter_after_duration toLocaleStringEnUS 1234 startTime currentTime h]
    have h1 : isDecimal (1234 : ℚ) = false := by
      have := isDecimal_intCast 1234
      simpa using this
    have h2 : ⌊(1234 : ℚ)⌋ = 1234 := by norm_num
    rw [h1, h2]
    decide
  · rw [updateCounter_after_duration toLocaleStringEnUS (9 / 2) startTime currentTime h]
    have h1 : isDecimal (9 / 2 : ℚ) = true := by
      apply isDecimal_of_not_whole
      norm_num
    have h2 : toFixed1 (9 / 2 : ℚ) = "4.5" := by
      norm_num [toFixed1]
      decide
    rw [h1, h2]
    rfl

/-- Witness of the amended C6: target `1234`, started at `0`, frame at `2016`. -/
theorem updateCounter_final_text_witness :
    (2000 : ℚ) ≤ 2016 - 0 ∧
    (updateCounter toLocaleStringEnUS 1234 0 2016).2 = false :=
  ⟨by norm_num,
   (updateCounter_final_text toLocaleStringEnUS 1234 0 2016 (by norm_num)).1⟩

/-- C10, the code at the failing input: with target `1234`, start time `0` and
a frame stamped `-100`, `progress` is `-0.05`, which `Math.min(..., 1)` leaves
alone, the value `current` is negative, and the text left in an `en-US` host is
`"-195"`, with a further frame requested. -/
theorem currentValue_negative_before_start :
    currentValue 1234 0 (-100) < 0 ∧
    updateCounter toLocaleStringEnUS 1234 0 (-100) = ("-195", true) := by
  have h1 : roundDouble (-100 - 0) =
      (-100 : ℚ) := by
    rw [roundDouble_eval_neg (-100 - 0)
      (6) 7036874417766400
      (by norm_num) (by norm_num) (by norm_num)
      (by norm_num) (by norm_num)]
    norm_num
  have h2 : roundDouble ((-100 : ℚ) / duration) =
      (-3602879701896397 / 72057594037927936 : ℚ) := by
    rw [roundDouble_eval_neg ((-100 : ℚ) / duration)
      (-5) 7205759403792794
      (by norm_num [duration]) (by norm_num [duration]) (by norm_num)
      (by norm_num [duration]) (by norm_num [duration])]
    norm_num
  have h3 : roundDouble (1 - (-3602879701896397 / 72057594037927936 : ℚ)) =
      (4728779608739021 / 4503599627370496 : ℚ) := by
    rw [roundDouble_eval_pos (1 - (-3602879701896397 / 72057594037927936 : ℚ))
      (0) 4728779608739021
      (by norm_num) (by norm_num) (by norm_num)
      (by norm_num) (by norm_num)]
    norm_num
  have h4 : roundDouble ((4728779608739021 / 4503599627370496 : ℚ) ^ 3) =
      (5213479518634771 / 4503599627370496 : ℚ) := by
    rw [roundDouble_eval_pos ((4728779608739021 / 4503599627370496 : ℚ) ^ 3)
      (0) 5213479518634771
      (by norm_num) (by norm_num) (by norm_num)
      (by norm_num) (by norm_num)]
    norm_num
  have h5 : roundDouble (1 - (5213479518634771 / 4503599627370496 : ℚ)) =
      (-709879891264275 / 4503599627370496 : ℚ) := by
    rw [roundDouble_eval_neg (1 - (5213479518634771 / 4503599627370496 : ℚ))
      (-3) 5679039130114200
      (by norm_num) (by norm_num) (by norm_num)
      (by norm_num) (by norm_num)]
    norm_num
  have h6 : roundDouble (1234 * (-709879891264275 / 4503599627370496 : ℚ)) =
      (-6843685826719651 / 35184372088832 : ℚ) := by
    rw [roundDouble_eval_neg (1234 * (-709879891264275 / 4503599627370496 : ℚ))
      (7) 6843685826719651
      (by norm_num) (by norm_num) (by norm_num)
      (by norm_num) (by norm_num)]
    norm_num
  have hmin : min (-3602879701896397 / 72057594037927936 : ℚ) 1 =
      (-3602879701896397 / 72057594037927936 : ℚ) := min_eq_left (by norm_num)
  have hcur : currentValue 1234 0 (-100) = (-6843685826719651 / 35184372088832 : ℚ) := by
    simp only [currentValue]
    rw [h1, h2, hmin, h3, h4, h5, h6]
  constructor
  · rw [hcur]
    norm_num
  · have hdec : isDecimal (1234 : ℚ) = false := by
      have := isDecimal_intCast 1234
      simpa using this
    have hfloor : ⌊(-6843685826719651 / 35184372088832 : ℚ)⌋ = -195 := by
      rw [Int.floor_eq_iff]
      constructor <;> norm_num
    simp only [updateCounter]
    rw [h1, h2, hmin, h3, h4, h5, h6, hdec, hfloor]
    rw [if_pos (by norm_num)]
    simp only [Bool.false_eq_true, if_false]
    decide

end DongMilnerton
